import Mathlib

/-!
# Shallow embedding of mktool's shared-library dependency checker

This file models the `check-shlibs` engine of the mktool repository:
`src/check_shlibs.rs` (shared state, `check_pkg`, `check_shlib`, the batch
driver) and the two format resolvers `src/check_shlibs/elf.rs` and
`src/check_shlibs/macho.rs`.

Modelling conventions:
* Filesystem paths are `String`s.  `pathPush` models Rust's
  `PathBuf::push` (an absolute argument replaces the base), and
  `pathStartsWith` models `Path::starts_with`, which compares whole path
  components, not characters.
* `HashMap` is modelled as an association list with an overwriting
  `insertMap`, matching `HashMap::insert`.
* The filesystem, the `pkg_admin dump` subprocess and the environment
  variables read inside the resolvers (`PLATFORM_RPATH`,
  `SKIP_SYSTEM_LIBS`) are modelled by an `Env` record, fixed for a run.
* A compiled `Regex` is modelled as its pattern text together with its
  match function; `Display` for a regex prints the pattern text.
* Printed diagnostic lines are collected in returned `List String`s, in
  print order.  Byte strings are modelled at `Char` granularity.
-/

/-- `str::starts_with`, at `Char` granularity.  (Defined via lists so
that all developments below reduce inside the kernel.) -/
def strStartsWith (s pre : String) : Bool :=
  pre.toList.isPrefixOf s.toList

/-- `str::ends_with`, at `Char` granularity. -/
def strEndsWith (s suf : String) : Bool :=
  suf.toList.isSuffixOf s.toList

/-- Drop the first `n` characters of a string. -/
def strDrop (s : String) (n : Nat) : String :=
  String.mk (s.toList.drop n)

/-- Split a character list at every character satisfying `p`, keeping
empty segments, as Rust's `split` does. -/
def splitCharsBy (p : Char → Bool) : List Char → List (List Char)
  | [] => [[]]
  | c :: cs =>
      let r := splitCharsBy p cs
      if p c then [] :: r
      else
        match r with
        | [] => [[c]]
        | h :: t => (c :: h) :: t

/-- `str::split(sep)` for a single separator character. -/
def splitOnChar (sep : Char) (s : String) : List String :=
  (splitCharsBy (fun c => c = sep) s.toList).map String.mk

/-- `PathBuf::push`: an absolute argument replaces the base path;
otherwise a separator is inserted as needed. -/
def pathPush (base arg : String) : String :=
  if strStartsWith arg "/" then arg
  else if base = "" then arg
  else if strEndsWith base "/" then base ++ arg
  else base ++ "/" ++ arg

/-- The non-empty `/`-separated components of a path.  Rust's
`Path::components` additionally normalises `.`, which no input in this
development uses. -/
def pathComponents (p : String) : List String :=
  (splitOnChar '/' p).filter (fun c => c ≠ "")

/-- `Path::is_absolute` on Unix: the path has a root. -/
def pathIsAbs (p : String) : Bool := strStartsWith p "/"

/-- `Path::starts_with`: component-wise prefix test (`/ab` does not start
with `/a`; `a/b` does not start with `/`). -/
def pathStartsWith (p q : String) : Bool :=
  pathIsAbs p = pathIsAbs q && (pathComponents q).isPrefixOf (pathComponents p)

/-- `HashMap::get`, on the association-list model. -/
def lookupMap {α : Type} : List (String × α) → String → Option α
  | [], _ => none
  | e :: es, k => if e.1 = k then some e.2 else lookupMap es k

/-- `HashMap::insert`: overwrites the entry for the key if present,
otherwise adds one. -/
def insertMap {α : Type} : List (String × α) → String → α → List (String × α)
  | [], k, v => [(k, v)]
  | e :: es, k, v => if e.1 = k then (k, v) :: es else e :: insertMap es k v

/-- A compiled `regex::Regex`: the pattern text (what `Display` prints)
and its match function (`Regex::is_match`). -/
structure Regexp where
  pattern : String
  rmatch : String → Bool

/-- `CheckState` from `src/check_shlibs.rs`.  `pkg_admin_cmd` and
`pkg_admin_args` only feed the subprocess invocation, which is modelled
by `Env.dump`, so they are omitted here. -/
structure CheckState where
  cross_destdir : Option String
  destdir : String
  system_paths : List String
  wrkdir : String
  wrkref : List String
  pkgdb : List (String × Option String)
  depends : List (String × String × String)
  toxic : List Regexp
  statlibs : List (String × Bool)

/-- Outcome of invoking `pkg_admin ... dump`: the spawn can fail
(`Command::output()` returns `Err`), or the subprocess exits with a code
and some stdout, modelled as its newline-split lines. -/
inductive DumpResult where
  | launchFailure : DumpResult
  | exited (code : Int) (stdout : List String) : DumpResult

/-- The external world for one run: the (unchanging) filesystem, the
package-admin dump subprocess, and the environment variables read inside
the resolvers. -/
structure Env where
  fsExists : String → Bool
  dump : DumpResult
  platform_rpath : Option String
  skip_system_libs : Bool

/-- The memoised existence test that appears (verbatim, four times) in
`elf.rs` and `macho.rs`: consult `statlibs`, otherwise `stat` the path
and cache the answer. -/
def cachedExists (env : Env) (st : CheckState) (libpath : String) :
    Bool × CheckState :=
  match lookupMap st.statlibs libpath with
  | some e => (e, st)
  | none =>
      let e := env.fsExists libpath
      (e, { st with statlibs := insertMap st.statlibs libpath e })

/-- The effective answer an existence test gives in state `st`: the
cached value if present, the filesystem's otherwise. -/
def effExists (env : Env) (st : CheckState) (p : String) : Bool :=
  match lookupMap st.statlibs p with
  | some e => e
  | none => env.fsExists p

/-! ## Parsing the `pkg_admin dump` output (`check_pkg`, first part) -/

/-- `need` occurs in `hay` at position `n`. -/
def occursAt (need hay : List Char) (n : Nat) : Prop :=
  need.isPrefixOf (hay.drop n) = true

/-- `hay.windows(need.len()).position(|w| w == need)`: index of the first
occurrence of `need` in `hay`. -/
def posOfSub (need : List Char) : List Char → Option Nat
  | [] => if need.isEmpty then some 0 else none
  | c :: cs =>
      if need.isPrefixOf (c :: cs) then some 0
      else (posOfSub need cs).map (· + 1)

/-- `(*byte as char).is_whitespace()`: the Unicode white-space
characters reachable from a single byte cast to `char`
(U+0009–U+000D, U+0020, U+0085, U+00A0). -/
def isWsByteChar (c : Char) : Bool :=
  c = ' ' || c = '\t' || c = '\n' || c = '\x0b' || c = '\x0c' || c = '\r'
    || c = '\x85' || c = '\xa0'

/-- `line.split(is_whitespace).next_back()`: the final whitespace-split
field of the line (empty when the line ends in whitespace). -/
def lastToken (line : String) : String :=
  (((splitCharsBy isWsByteChar line.toList).map String.mk).getLast?).getD ""

/-- One line of `pkg_admin dump` output, parsed as in `check_pkg`
(`src/check_shlibs.rs` lines 136–158): the line must start with
`"file: "`; the file is everything between that and the *first*
occurrence of `" pkg: "`; the package name is the final
whitespace-split field.  The source slices `line[6..pos]`, so a line
whose first `" pkg: "` occurrence starts before index 6 (only `pos = 5`
is possible) would panic there; no theorem below relies on such lines
and they are treated as skipped.  The UTF-8 validation of the package
name always succeeds in this `String` model. -/
def parseDumpLine (line : String) : Option (String × String) :=
  if strStartsWith line "file: " then
    match posOfSub (" pkg: ".toList) line.toList with
    | none => none
    | some pos =>
        if pos < 6 then none
        else some (String.mk ((line.toList.drop 6).take (pos - 6)), lastToken line)
  else none

/-- The population loop of `check_pkg`: fold the dump lines into the
ownership index, inserting `file ↦ some pkg` for each parsed line and
skipping the rest. -/
def populatePkgdb (stdout : List String) (db : List (String × Option String)) :
    List (String × Option String) :=
  stdout.foldl (fun db line =>
    match parseDumpLine line with
    | some fp => insertMap db fp.1 (some fp.2)
    | none => db) db

/-! ## The ownership validator (`check_pkg`, second part) -/

def notRuntimeDepLine (obj lib pkgname : String) : String :=
  obj ++ ": " ++ lib ++ ": " ++ pkgname ++ " is not a runtime dependency"

/-- The `for dep in &state.depends` loop of `check_pkg`: returns the
`found` flag together with whether the loop returned early on a
`full`/`indirect-full` entry for `pkgname`. -/
def pkgDepCheck (pkgname : String) :
    List (String × String × String) → Bool → Bool × Bool
  | [], found => (found, false)
  | d :: ds, found =>
      if d.2.2 = pkgname then
        if d.1 = "full" || d.1 = "indirect-full" then (found, true)
        else pkgDepCheck pkgname ds true
      else pkgDepCheck pkgname ds found

/-- The body of `check_pkg` from `src/check_shlibs.rs`, over the only
pieces of state it reads or writes (`pkgdb` and `depends`): populate the
ownership index on first use (skipped when the subprocess exits
non-zero), look the library up (caching a negative answer when absent),
and check the declared dependencies.  `none` models the `anyhow` error
returned when the subprocess cannot be launched; otherwise the result is
the list of printed lines, the returned `bool`, and the updated index. -/
def checkPkgAux (env : Env) (obj lib : String)
    (pkgdb : List (String × Option String))
    (depends : List (String × String × String)) :
    Option (List String × Bool × List (String × Option String)) :=
  match
    (if pkgdb.isEmpty then
      match env.dump with
      | .launchFailure => none
      | .exited code stdout =>
          if code = 0 then some (populatePkgdb stdout pkgdb) else some pkgdb
    else some pkgdb) with
  | none => none
  | some db =>
      match lookupMap db lib with
      | none => some ([], true, insertMap db lib none)
      | some none => some ([], true, db)
      | some (some pkgname) =>
          match pkgDepCheck pkgname depends false with
          | (_, true) => some ([], true, db)
          | (true, false) =>
              some ([notRuntimeDepLine obj lib pkgname], false, db)
          | (false, false) => some ([], false, db)

/-- `check_pkg` on the full `CheckState` (of which it touches only
`pkgdb`; `depends` is read-only). -/
def check_pkg (env : Env) (obj lib : String) (st : CheckState) :
    Option (List String × Bool × CheckState) :=
  (checkPkgAux env obj lib st.pkgdb st.depends).map
    (fun r => (r.1, r.2.1, { st with pkgdb := r.2.2 }))

/-- Both resolvers call `check_pkg(...)` and discard its `Result`.  An
`Err` arises only from the subprocess spawn, before anything is printed
or the state is changed, so dropping it yields no diagnostics and leaves
the state as it was. -/
def checkPkgDrop (env : Env) (obj lib : String) (st : CheckState) :
    List String × CheckState :=
  match check_pkg env obj lib st with
  | none => ([], st)
  | some (d, _, st1) => (d, st1)

/-! ## The path-policy validator (`check_shlib`) -/

def wrkdirLine (obj lib : String) : String :=
  obj ++ ": path relative to WRKDIR: " ++ lib

def wrkrefLine (obj lib dir : String) : String :=
  obj ++ ": rpath " ++ lib ++ " relative to CHECK_WRKREF_EXTRA_DIRS directory " ++ dir

def toxicLine (obj lib pat : String) : String :=
  obj ++ ": resolved path " ++ lib ++ " matches toxic " ++ pat

def relativeLine (obj lib : String) : String :=
  obj ++ ": relative library path: " ++ lib

/-- `check_shlib` from `src/check_shlibs.rs`: the four policy checks,
each run unconditionally, in source order (WRKDIR, extra work-reference
directories, toxic patterns, absoluteness).  The returned flag is the
source's `rv`, which is set to `false` by every firing check, i.e. it is
`true` exactly when no check printed anything. -/
def check_shlib (obj lib : String) (st : CheckState) : List String × Bool :=
  let d1 : List String :=
    if pathStartsWith lib st.wrkdir then [wrkdirLine obj lib] else []
  let d2 : List String :=
    st.wrkref.filterMap fun dir =>
      if pathStartsWith lib dir then some (wrkrefLine obj lib dir) else none
  let d3 : List String :=
    st.toxic.filterMap fun r =>
      if r.rmatch lib then some (toxicLine obj lib r.pattern) else none
  let d4 : List String :=
    if pathStartsWith lib "/" then [] else [relativeLine obj lib]
  (d1 ++ d2 ++ d3 ++ d4, d1.isEmpty && d2.isEmpty && d3.isEmpty && d4.isEmpty)

/-! ## The ELF resolver (`src/check_shlibs/elf.rs`) -/

/-- The view of a parsed ELF object that `check_dso` uses: the required
library names and the raw `runpaths` entries from goblin. -/
structure ElfObject where
  libraries : List String
  runpaths : List String

def missingLine (obj lib : String) : String :=
  obj ++ ": missing library: " ++ lib

/-- The `syspath` computation at the top of the ELF `check_dso`:
`PLATFORM_RPATH` split on `:`, each entry pushed onto a clone of the
`CROSS_DESTDIR` prefix (note `PathBuf::push` discards the prefix when
the entry is absolute). -/
def elfSyspath (env : Env) (st : CheckState) : List String :=
  match env.platform_rpath with
  | some paths =>
      let crossPre := match st.cross_destdir with
        | some p => p
        | none => ""
      (splitOnChar ':' paths).map (fun p => pathPush crossPre p)
  | none => []

/-- The staged candidate used by the DESTDIR stage:
`destdir / rpath.strip_prefix("/").unwrap_or(rpath) / lib`. -/
def stagedPath (destdir rpath lib : String) : String :=
  pathPush
    (if strStartsWith rpath "/" then pathPush destdir (strDrop rpath 1)
     else pathPush destdir rpath)
    lib

/-- Stage 1 of the ELF per-library search (`elf.rs` lines 65–81): walk
the RUNPATH entries; on the first candidate that exists, run
`check_shlib` then `check_pkg` (its `Result` dropped) and stop. -/
def elfStageRunpath (env : Env) (obj lib : String) :
    List String → CheckState → Option (List String) × CheckState
  | [], st => (none, st)
  | rpath :: rest, st =>
      let libpath := pathPush rpath lib
      let r := cachedExists env st libpath
      if r.1 then
        let d1 := (check_shlib obj libpath r.2).1
        let r2 := checkPkgDrop env obj libpath r.2
        (some (d1 ++ r2.1), r2.2)
      else elfStageRunpath env obj lib rest r.2

/-- Stage 2 (`elf.rs` lines 88–107): look for the library under DESTDIR
for each RUNPATH entry; existence alone satisfies the requirement. -/
def elfStageDestdir (env : Env) (lib : String) :
    List String → CheckState → Bool × CheckState
  | [], st => (false, st)
  | rpath :: rest, st =>
      let libpath := stagedPath st.destdir rpath lib
      let r := cachedExists env st libpath
      if r.1 then (true, r.2)
      else elfStageDestdir env lib rest r.2

/-- Stage 3 (`elf.rs` lines 114–129): walk the `PLATFORM_RPATH`-derived
system paths; on the first existing candidate run only `check_shlib`. -/
def elfStageSyspath (env : Env) (obj lib : String) :
    List String → CheckState → Option (List String) × CheckState
  | [], st => (none, st)
  | sp :: rest, st =>
      let libpath := pathPush sp lib
      let r := cachedExists env st libpath
      if r.1 then (some (check_shlib obj libpath r.2).1, r.2)
      else elfStageSyspath env obj lib rest r.2

/-- The body of the `'nextlib` loop of the ELF `check_dso`: the three
stages in source order, then the missing-library diagnostic. -/
def elfCheckLib (env : Env) (obj : String) (runpath syspath : List String)
    (lib : String) (st : CheckState) : List String × CheckState :=
  match elfStageRunpath env obj lib runpath st with
  | (some d, st1) => (d, st1)
  | (none, st1) =>
      match elfStageDestdir env lib runpath st1 with
      | (true, st2) => ([], st2)
      | (false, st2) =>
          match elfStageSyspath env obj lib syspath st2 with
          | (some d, st3) => (d, st3)
          | (none, st3) => ([missingLine obj lib], st3)

/-- The ELF `check_dso` (`src/check_shlibs/elf.rs`): split the *first*
`runpaths` entry on `:` (or use no entries), compute the system paths,
then process every required library in order. -/
def elf_check_dso (env : Env) (obj : String) (elf : ElfObject)
    (st : CheckState) : List String × CheckState :=
  let runpath : List String :=
    match elf.runpaths.head? with
    | some p => splitOnChar ':' p
    | none => []
  let syspath := elfSyspath env st
  elf.libraries.foldl
    (fun acc lib =>
      let r := elfCheckLib env obj runpath syspath lib acc.2
      (acc.1 ++ r.1, r.2))
    ([], st)

/-! ## The Mach-O resolver (`src/check_shlibs/macho.rs`) -/

/-- The view of a parsed Mach-O object that `check_dso` uses (for a fat
binary, its first architecture): the load-command library list, whose
first entry is the object's own identity. -/
structure MachObject where
  libs : List String

/-- The per-library body of the Mach-O `check_dso` loop (after the
index-0 skip): skip requested system libraries, then the DESTDIR staged
check, then the direct check with both validators (`check_pkg`'s
`Result` dropped), else the missing-library diagnostic.  The system and
staged tests use string prefixes (`str::starts_with` /
`str::strip_prefix`). -/
def machoStagedPath (destdir lib : String) : String :=
  if strStartsWith lib "/" then pathPush destdir (strDrop lib 1)
  else pathPush destdir lib

def machoCheckLib (env : Env) (obj lib : String) (st : CheckState) :
    List String × CheckState :=
  if env.skip_system_libs
      && (strStartsWith lib "/System/Library" || strStartsWith lib "/usr/lib") then
    ([], st)
  else
    let staged := machoStagedPath st.destdir lib
    let r := cachedExists env st staged
    if r.1 then ([], r.2)
    else
      let r2 := cachedExists env r.2 lib
      if r2.1 then
        let d1 := (check_shlib obj lib r2.2).1
        let r3 := checkPkgDrop env obj lib r2.2
        (d1 ++ r3.1, r3.2)
      else ([missingLine obj lib], r2.2)

/-- The Mach-O `check_dso`: enumerate the library list, skipping index 0
("self"), and process the rest in order. -/
def macho_check_dso (env : Env) (obj : String) (m : MachObject)
    (st : CheckState) : List String × CheckState :=
  m.libs.enum.foldl
    (fun acc il =>
      if il.1 = 0 then acc
      else
        let r := machoCheckLib env obj il.2 acc.2
        (acc.1 ++ r.1, r.2))
    ([], st)

/-! ## The batch driver (`CheckShlibs::run`) -/

/-- One stdin line of the driver, after the I/O that is external to the
core: the object file could not be read (the error goes to stderr and
the batch continues), its bytes did not parse as a supported object
(silently skipped), or it parsed as an ELF or Mach-O object. -/
inductive ObjInput where
  | unreadable (err : String) : ObjInput
  | unparseable : ObjInput
  | elfObj (o : ElfObject) : ObjInput
  | machObj (m : MachObject) : ObjInput

/-- The per-line dispatch of `CheckShlibs::run`, returning the stdout
diagnostics and the updated state. -/
def runStep (env : Env) (st : CheckState) (inp : String × ObjInput) :
    List String × CheckState :=
  match inp.2 with
  | .unreadable _ => ([], st)
  | .unparseable => ([], st)
  | .elfObj o => elf_check_dso env inp.1 o st
  | .machObj m => macho_check_dso env inp.1 m st

/-- `CheckShlibs::run`, after its (external) configuration phase: process
every input line in order, then return exit code 0 — the function ends
in `Ok(0)` with no aggregation of the diagnostics that were printed. -/
def runDriver (env : Env) (inputs : List (String × ObjInput))
    (st : CheckState) : List String × CheckState × Int :=
  let r := inputs.foldl
    (fun acc inp =>
      let s := runStep env acc.2 inp
      (acc.1 ++ s.1, s.2))
    ([], st)
  (r.1, r.2, 0)

/-! ## Concrete example inputs

Small closed states, environments and objects, used to evaluate the
model at explicit inputs. -/

/-- A run configuration with `DESTDIR=/destdir`, `WRKDIR=/wrk`, no cross
prefix, and everything else empty. -/
def stPlain : CheckState :=
  { cross_destdir := none, destdir := "/destdir", system_paths := [],
    wrkdir := "/wrk", wrkref := [], pkgdb := [], depends := [],
    toxic := [], statlibs := [] }

/-- The same configuration with `CROSS_DESTDIR=/cross`. -/
def stCross : CheckState :=
  { stPlain with cross_destdir := some "/cross" }

def rgx1 : Regexp := { pattern := "pat1", rmatch := fun _ => true }

def rgx2 : Regexp := { pattern := "pat2", rmatch := fun _ => true }

/-- A configuration with two (always-matching) toxic patterns. -/
def stPolicy : CheckState :=
  { stPlain with toxic := [rgx1, rgx2] }

/-- A configuration whose ownership index knows one file, owned by a
package declared only as a build dependency. -/
def stDeps : CheckState :=
  { stPlain with
    pkgdb := [("/opt/pkg/lib/libfoo.so", some "libfoo-1.0")],
    depends := [("build", "libfoo-1.0", "libfoo-1.0")] }

/-- A configuration with one entry already in each cache. -/
def stCached : CheckState :=
  { stPlain with
    statlibs := [("/x", true)],
    pkgdb := [("/a", some "p")] }

/-- A filesystem holding a library both at its plain resolved path under
`/wrk/lib` and staged under `DESTDIR`. -/
def envBoth : Env :=
  { fsExists := fun p =>
      p == "/wrk/lib/libfoo.so" || p == "/destdir/wrk/lib/libfoo.so",
    dump := .exited 0 [], platform_rpath := none, skip_system_libs := false }

/-- A filesystem holding the library only under the `/cross` prefix. -/
def envCross : Env :=
  { fsExists := fun p => p == "/cross/opt/lib/liba.so",
    dump := .exited 0 [], platform_rpath := none, skip_system_libs := false }

/-- A filesystem holding the library at its plain resolved path. -/
def envPlain : Env :=
  { fsExists := fun p => p == "/opt/lib/liba.so",
    dump := .exited 0 [], platform_rpath := none, skip_system_libs := false }

/-- An empty filesystem. -/
def envNone : Env :=
  { fsExists := fun _ => false,
    dump := .exited 0 [], platform_rpath := none, skip_system_libs := false }

/-- A package-admin dump that lists the same path twice with different
owners. -/
def envDupDump : Env :=
  { fsExists := fun _ => false,
    dump := .exited 0 ["file: /a pkg: p1", "file: /a pkg: p2"],
    platform_rpath := none, skip_system_libs := false }

/-! ## Basic lemmas about the map and cache models -/

theorem lookupMap_insertMap_self {α : Type} (m : List (String × α)) (k : String)
    (v : α) : lookupMap (insertMap m k v) k = some v := by
  induction m with
  | nil => simp [insertMap, lookupMap]
  | cons e es ih =>
      by_cases h : e.1 = k
      · simp [insertMap, lookupMap, h]
      · simp [insertMap, lookupMap, h, ih]

theorem lookupMap_insertMap_ne {α : Type} (m : List (String × α)) (k k2 : String)
    (v : α) (h : k2 ≠ k) : lookupMap (insertMap m k v) k2 = lookupMap m k2 := by
  induction m with
  | nil => simp [insertMap, lookupMap, Ne.symm h]
  | cons e es ih =>
      by_cases he : e.1 = k
      · rw [show insertMap (e :: es) k v = (k, v) :: es by simp [insertMap, he]]
        simp only [lookupMap]
        rw [if_neg (Ne.symm h), if_neg (fun hh => Ne.symm h (he.symm.trans hh))]
      · rw [show insertMap (e :: es) k v = e :: insertMap es k v by
              simp [insertMap, he]]
        simp only [lookupMap]
        by_cases he2 : e.1 = k2
        · simp [he2]
        · simp [he2, ih]

theorem cachedExists_fst (env : Env) (st : CheckState) (p : String) :
    (cachedExists env st p).1 = effExists env st p := by
  unfold cachedExists effExists
  cases lookupMap st.statlibs p <;> rfl

theorem cachedExists_of_cached (env : Env) (st : CheckState) (p : String)
    (v : Bool) (h : lookupMap st.statlibs p = some v) :
    cachedExists env st p = (v, st) := by
  unfold cachedExists
  rw [h]

/-- `st'` extends `st` only in the existence cache: every other field is
unchanged and every effective existence answer is preserved. -/
def CacheExt (env : Env) (st st' : CheckState) : Prop :=
  st' = { st with statlibs := st'.statlibs } ∧
  ∀ q, effExists env st' q = effExists env st q

theorem cacheExt_refl (env : Env) (st : CheckState) : CacheExt env st st :=
  ⟨rfl, fun _ => rfl⟩

theorem cacheExt_trans {env : Env} {st1 st2 st3 : CheckState}
    (h1 : CacheExt env st1 st2) (h2 : CacheExt env st2 st3) :
    CacheExt env st1 st3 := by
  refine ⟨?_, fun q => (h2.2 q).trans (h1.2 q)⟩
  rw [h2.1, h1.1]

theorem cachedExists_cacheExt (env : Env) (st : CheckState) (p : String) :
    CacheExt env st (cachedExists env st p).2 := by
  unfold cachedExists
  cases hl : lookupMap st.statlibs p with
  | some e => exact cacheExt_refl env st
  | none =>
      refine ⟨rfl, fun q => ?_⟩
      unfold effExists
      by_cases hq : q = p
      · subst hq
        simp only [lookupMap_insertMap_self, hl]
      · simp only [lookupMap_insertMap_ne _ _ _ _ hq]

theorem cachedExists_preserves (env : Env) (st : CheckState) (p q : String)
    (v : Bool) (h : lookupMap st.statlibs p = some v) :
    lookupMap ((cachedExists env st q).2).statlibs p = some v := by
  unfold cachedExists
  cases hl : lookupMap st.statlibs q with
  | some e => exact h
  | none =>
      have hpq : p ≠ q := by
        intro he
        rw [he, hl] at h
        exact Option.noConfusion h
      simp only [lookupMap_insertMap_ne _ _ _ _ hpq]
      exact h

/-! ## State-irrelevance lemmas for the validators -/

theorem check_shlib_statlibs (obj lib : String) (st : CheckState)
    (sl : List (String × Bool)) :
    check_shlib obj lib { st with statlibs := sl } = check_shlib obj lib st := rfl

theorem check_shlib_congr (obj lib : String) {env : Env} {st st' : CheckState}
    (h : CacheExt env st st') :
    check_shlib obj lib st' = check_shlib obj lib st := by
  rw [h.1]
  rfl

theorem checkPkgDrop_fst_statlibs (env : Env) (obj lib : String) (st : CheckState)
    (sl : List (String × Bool)) :
    (checkPkgDrop env obj lib { st with statlibs := sl }).1 =
      (checkPkgDrop env obj lib st).1 := by
  unfold checkPkgDrop check_pkg
  cases h : checkPkgAux env obj lib st.pkgdb st.depends <;> simp [h]

theorem checkPkgDrop_fst_congr (env : Env) (obj lib : String) {st st' : CheckState}
    (h : CacheExt env st st') :
    (checkPkgDrop env obj lib st').1 = (checkPkgDrop env obj lib st).1 := by
  rw [h.1]
  exact checkPkgDrop_fst_statlibs env obj lib st st'.statlibs

/-! ## Skip and hit lemmas for the three ELF search stages -/

theorem elfStageRunpath_none (env : Env) (obj lib : String) :
    ∀ (rs : List String) (st : CheckState),
    (∀ r ∈ rs, effExists env st (pathPush r lib) = false) →
    ∃ st', elfStageRunpath env obj lib rs st = (none, st') ∧ CacheExt env st st'
  | [], st, _ => ⟨st, rfl, cacheExt_refl env st⟩
  | r :: rs, st, h => by
      have hx : (cachedExists env st (pathPush r lib)).1 = false := by
        rw [cachedExists_fst]
        exact h r (by simp)
      have hext := cachedExists_cacheExt env st (pathPush r lib)
      have hrest : ∀ r2 ∈ rs,
          effExists env (cachedExists env st (pathPush r lib)).2
            (pathPush r2 lib) = false := by
        intro r2 hr2
        rw [hext.2]
        exact h r2 (by simp [hr2])
      obtain ⟨st', heq, hext2⟩ :=
        elfStageRunpath_none env obj lib rs
          (cachedExists env st (pathPush r lib)).2 hrest
      refine ⟨st', ?_, cacheExt_trans hext hext2⟩
      simp only [elfStageRunpath, hx, Bool.false_eq_true, if_false]
      exact heq

theorem elfStageDestdir_none (env : Env) (lib : String) :
    ∀ (rs : List String) (st : CheckState),
    (∀ r ∈ rs, effExists env st (stagedPath st.destdir r lib) = false) →
    ∃ st', elfStageDestdir env lib rs st = (false, st') ∧ CacheExt env st st'
  | [], st, _ => ⟨st, rfl, cacheExt_refl env st⟩
  | r :: rs, st, h => by
      have hx : (cachedExists env st (stagedPath st.destdir r lib)).1 = false := by
        rw [cachedExists_fst]
        exact h r (by simp)
      have hext := cachedExists_cacheExt env st (stagedPath st.destdir r lib)
      have hdd : (cachedExists env st (stagedPath st.destdir r lib)).2.destdir
          = st.destdir := by
        rw [hext.1]
      have hrest : ∀ r2 ∈ rs,
          effExists env (cachedExists env st (stagedPath st.destdir r lib)).2
            (stagedPath (cachedExists env st
              (stagedPath st.destdir r lib)).2.destdir r2 lib) = false := by
        intro r2 hr2
        rw [hext.2, hdd]
        exact h r2 (by simp [hr2])
      obtain ⟨st', heq, hext2⟩ :=
        elfStageDestdir_none env lib rs
          (cachedExists env st (stagedPath st.destdir r lib)).2 hrest
      refine ⟨st', ?_, cacheExt_trans hext hext2⟩
      simp only [elfStageDestdir, hx, Bool.false_eq_true, if_false]
      exact heq

theorem elfStageSyspath_none (env : Env) (obj lib : String) :
    ∀ (rs : List String) (st : CheckState),
    (∀ s2 ∈ rs, effExists env st (pathPush s2 lib) = false) →
    ∃ st', elfStageSyspath env obj lib rs st = (none, st') ∧ CacheExt env st st'
  | [], st, _ => ⟨st, rfl, cacheExt_refl env st⟩
  | r :: rs, st, h => by
      have hx : (cachedExists env st (pathPush r lib)).1 = false := by
        rw [cachedExists_fst]
        exact h r (by simp)
      have hext := cachedExists_cacheExt env st (pathPush r lib)
      have hrest : ∀ r2 ∈ rs,
          effExists env (cachedExists env st (pathPush r lib)).2
            (pathPush r2 lib) = false := by
        intro r2 hr2
        rw [hext.2]
        exact h r2 (by simp [hr2])
      obtain ⟨st', heq, hext2⟩ :=
        elfStageSyspath_none env obj lib rs
          (cachedExists env st (pathPush r lib)).2 hrest
      refine ⟨st', ?_, cacheExt_trans hext hext2⟩
      simp only [elfStageSyspath, hx, Bool.false_eq_true, if_false]
      exact heq

theorem elfStageRunpath_append (env : Env) (obj lib : String) :
    ∀ (xs : List String) (st : CheckState),
    (∀ r ∈ xs, effExists env st (pathPush r lib) = false) →
    ∀ ys, ∃ st', elfStageRunpath env obj lib (xs ++ ys) st =
        elfStageRunpath env obj lib ys st' ∧ CacheExt env st st'
  | [], st, _, ys => ⟨st, rfl, cacheExt_refl env st⟩
  | r :: xs, st, h, ys => by
      have hx : (cachedExists env st (pathPush r lib)).1 = false := by
        rw [cachedExists_fst]
        exact h r (by simp)
      have hext := cachedExists_cacheExt env st (pathPush r lib)
      have hrest : ∀ r2 ∈ xs,
          effExists env (cachedExists env st (pathPush r lib)).2
            (pathPush r2 lib) = false := by
        intro r2 hr2
        rw [hext.2]
        exact h r2 (by simp [hr2])
      obtain ⟨st', heq, hext2⟩ :=
        elfStageRunpath_append env obj lib xs
          (cachedExists env st (pathPush r lib)).2 hrest ys
      refine ⟨st', ?_, cacheExt_trans hext hext2⟩
      simp only [List.cons_append, elfStageRunpath, hx, Bool.false_eq_true,
        if_false]
      exact heq

theorem elfStageRunpath_hit (env : Env) (obj lib r : String)
    (xs ys : List String) (st : CheckState)
    (hxs : ∀ r2 ∈ xs, effExists env st (pathPush r2 lib) = false)
    (hr : effExists env st (pathPush r lib) = true) :
    ∃ st', elfStageRunpath env obj lib (xs ++ r :: ys) st =
      (some ((check_shlib obj (pathPush r lib) st).1 ++
        (checkPkgDrop env obj (pathPush r lib) st).1), st') := by
  obtain ⟨st1, heq, hext⟩ := elfStageRunpath_append env obj lib xs st hxs (r :: ys)
  have hx : (cachedExists env st1 (pathPush r lib)).1 = true := by
    rw [cachedExists_fst, hext.2]
    exact hr
  have hext2 := cacheExt_trans hext (cachedExists_cacheExt env st1 (pathPush r lib))
  refine ⟨(checkPkgDrop env obj (pathPush r lib)
    (cachedExists env st1 (pathPush r lib)).2).2, ?_⟩
  rw [heq]
  simp only [elfStageRunpath, hx, if_true]
  rw [check_shlib_congr obj (pathPush r lib) hext2,
    checkPkgDrop_fst_congr env obj (pathPush r lib) hext2]

theorem elfStageDestdir_append (env : Env) (lib : String) :
    ∀ (xs : List String) (st : CheckState),
    (∀ r ∈ xs, effExists env st (stagedPath st.destdir r lib) = false) →
    ∀ ys, ∃ st', elfStageDestdir env lib (xs ++ ys) st =
        elfStageDestdir env lib ys st' ∧ CacheExt env st st'
  | [], st, _, ys => ⟨st, rfl, cacheExt_refl env st⟩
  | r :: xs, st, h, ys => by
      have hx : (cachedExists env st (stagedPath st.destdir r lib)).1 = false := by
        rw [cachedExists_fst]
        exact h r (by simp)
      have hext := cachedExists_cacheExt env st (stagedPath st.destdir r lib)
      have hdd : (cachedExists env st (stagedPath st.destdir r lib)).2.destdir
          = st.destdir := by rw [hext.1]
      have hrest : ∀ r2 ∈ xs,
          effExists env (cachedExists env st (stagedPath st.destdir r lib)).2
            (stagedPath (cachedExists env st
              (stagedPath st.destdir r lib)).2.destdir r2 lib) = false := by
        intro r2 hr2
        rw [hext.2, hdd]
        exact h r2 (by simp [hr2])
      obtain ⟨st', heq, hext2⟩ :=
        elfStageDestdir_append env lib xs
          (cachedExists env st (stagedPath st.destdir r lib)).2 hrest ys
      refine ⟨st', ?_, cacheExt_trans hext hext2⟩
      simp only [List.cons_append, elfStageDestdir, hx, Bool.false_eq_true,
        if_false]
      exact heq

theorem elfStageDestdir_hit (env : Env) (lib r : String)
    (xs ys : List String) (st : CheckState)
    (hxs : ∀ r2 ∈ xs, effExists env st (stagedPath st.destdir r2 lib) = false)
    (hr : effExists env st (stagedPath st.destdir r lib) = true) :
    ∃ st', elfStageDestdir env lib (xs ++ r :: ys) st = (true, st') := by
  obtain ⟨st1, heq, hext⟩ := elfStageDestdir_append env lib xs st hxs (r :: ys)
  have hdd : st1.destdir = st.destdir := by rw [hext.1]
  have hx : (cachedExists env st1 (stagedPath st1.destdir r lib)).1 = true := by
    rw [cachedExists_fst, hext.2, hdd]
    exact hr
  refine ⟨(cachedExists env st1 (stagedPath st1.destdir r lib)).2, ?_⟩
  rw [heq]
  simp only [elfStageDestdir, hx, if_true]

/-- If the plain RUNPATH stage finds no candidate and the DESTDIR stage
finds one, the requirement is satisfied with no diagnostics at all
(the system stage is not reached). -/
theorem elfCheckLib_staged (env : Env) (obj lib : String)
    (syspath : List String) (st : CheckState)
    (xs ys : List String) (r : String)
    (h1 : ∀ r2 ∈ xs ++ r :: ys, effExists env st (pathPush r2 lib) = false)
    (h2 : ∀ r2 ∈ xs, effExists env st (stagedPath st.destdir r2 lib) = false)
    (hr : effExists env st (stagedPath st.destdir r lib) = true) :
    (elfCheckLib env obj (xs ++ r :: ys) syspath lib st).1 = [] := by
  obtain ⟨st1, heq1, hext1⟩ :=
    elfStageRunpath_none env obj lib (xs ++ r :: ys) st h1
  have hdd1 : st1.destdir = st.destdir := by rw [hext1.1]
  have h2' : ∀ r2 ∈ xs,
      effExists env st1 (stagedPath st1.destdir r2 lib) = false := by
    intro r2 hr2
    rw [hext1.2, hdd1]
    exact h2 r2 hr2
  have hr' : effExists env st1 (stagedPath st1.destdir r lib) = true := by
    rw [hext1.2, hdd1]
    exact hr
  obtain ⟨st2, heq2⟩ := elfStageDestdir_hit env lib r xs ys st1 h2' hr'
  simp only [elfCheckLib, heq1, heq2]

/-- If no stage can resolve the library, the result is exactly one
missing-library diagnostic. -/
theorem elfCheckLib_missing (env : Env) (obj lib : String)
    (runpath syspath : List String) (st : CheckState)
    (h1 : ∀ r ∈ runpath, effExists env st (pathPush r lib) = false)
    (h2 : ∀ r ∈ runpath, effExists env st (stagedPath st.destdir r lib) = false)
    (h3 : ∀ s2 ∈ syspath, effExists env st (pathPush s2 lib) = false) :
    (elfCheckLib env obj runpath syspath lib st).1 = [missingLine obj lib] := by
  obtain ⟨st1, heq1, hext1⟩ := elfStageRunpath_none env obj lib runpath st h1
  have hdd1 : st1.destdir = st.destdir := by rw [hext1.1]
  have h2' : ∀ r ∈ runpath,
      effExists env st1 (stagedPath st1.destdir r lib) = false := by
    intro r hrr
    rw [hext1.2, hdd1]
    exact h2 r hrr
  obtain ⟨st2, heq2, hext2⟩ := elfStageDestdir_none env lib runpath st1 h2'
  have h3' : ∀ s2 ∈ syspath, effExists env st2 (pathPush s2 lib) = false := by
    intro s2 hs2
    rw [hext2.2, hext1.2]
    exact h3 s2 hs2
  obtain ⟨st3, heq3, _⟩ := elfStageSyspath_none env obj lib syspath st2 h3'
  simp only [elfCheckLib, heq1, heq2, heq3]

/-- If some plain RUNPATH candidate exists, the validators run on the
first such candidate and their output is the whole per-library output. -/
theorem elfCheckLib_runpath_hit (env : Env) (obj lib r : String)
    (xs ys syspath : List String) (st : CheckState)
    (hxs : ∀ r2 ∈ xs, effExists env st (pathPush r2 lib) = false)
    (hr : effExists env st (pathPush r lib) = true) :
    (elfCheckLib env obj (xs ++ r :: ys) syspath lib st).1 =
      (check_shlib obj (pathPush r lib) st).1 ++
        (checkPkgDrop env obj (pathPush r lib) st).1 := by
  obtain ⟨st', heq⟩ := elfStageRunpath_hit env obj lib r xs ys st hxs hr
  simp only [elfCheckLib, heq]

/-! ## The RUNPATH stage never reads `cross_destdir` -/

theorem cachedExists_cross (env : Env) (st : CheckState) (c : Option String)
    (p : String) :
    cachedExists env { st with cross_destdir := c } p =
      ((cachedExists env st p).1,
        { (cachedExists env st p).2 with cross_destdir := c }) := by
  unfold cachedExists
  cases h : lookupMap st.statlibs p <;> simp [h]

theorem checkPkgDrop_cross (env : Env) (obj lib : String) (st : CheckState)
    (c : Option String) :
    checkPkgDrop env obj lib { st with cross_destdir := c } =
      ((checkPkgDrop env obj lib st).1,
        { (checkPkgDrop env obj lib st).2 with cross_destdir := c }) := by
  unfold checkPkgDrop check_pkg
  cases h : checkPkgAux env obj lib st.pkgdb st.depends <;> simp [h]

theorem check_shlib_cross (obj lib : String) (st : CheckState)
    (c : Option String) :
    check_shlib obj lib { st with cross_destdir := c } =
      check_shlib obj lib st := rfl

theorem elfStageRunpath_cross (env : Env) (obj lib : String) :
    ∀ (rs : List String) (st : CheckState) (c : Option String),
    elfStageRunpath env obj lib rs { st with cross_destdir := c } =
      ((elfStageRunpath env obj lib rs st).1,
        { (elfStageRunpath env obj lib rs st).2 with cross_destdir := c })
  | [], st, c => rfl
  | r :: rs, st, c => by
      simp only [elfStageRunpath, cachedExists_cross, check_shlib_cross,
        checkPkgDrop_cross]
      cases hx : (cachedExists env st (pathPush r lib)).1
      · simp only [Bool.false_eq_true, if_false]
        exact elfStageRunpath_cross env obj lib rs
          (cachedExists env st (pathPush r lib)).2 c
      · simp only [if_true]

/-! ## Lemmas about the declared-dependency scan -/

theorem pkgDepCheck_none (pk : String) :
    ∀ (deps : List (String × String × String)) (found : Bool),
    (∀ d ∈ deps, d.2.2 ≠ pk) → pkgDepCheck pk deps found = (found, false)
  | [], _, _ => rfl
  | d :: ds, found, h => by
      have hd : d.2.2 ≠ pk := h d (by simp)
      simp only [pkgDepCheck, if_neg hd]
      exact pkgDepCheck_none pk ds found (fun x hx => h x (by simp [hx]))

theorem pkgDepCheck_full (pk : String) :
    ∀ (deps : List (String × String × String)) (found : Bool),
    (∃ d ∈ deps, d.2.2 = pk ∧ (d.1 = "full" ∨ d.1 = "indirect-full")) →
    (pkgDepCheck pk deps found).2 = true
  | [], _, h => by simp at h
  | d :: ds, found, h => by
      by_cases hd : d.2.2 = pk
      · by_cases hf : d.1 = "full" ∨ d.1 = "indirect-full"
        · have : (d.1 = "full" || d.1 = "indirect-full") = true := by
            rcases hf with hf | hf <;> simp [hf]
          simp [pkgDepCheck, hd, this]
        · have : (d.1 = "full" || d.1 = "indirect-full") = false := by
            simp only [not_or] at hf
            simp [hf.1, hf.2]
          simp only [pkgDepCheck, if_pos hd, this, Bool.false_eq_true, if_false]
          refine pkgDepCheck_full pk ds true ?_
          rcases h with ⟨w, hw, hwpk, hwf⟩
          rcases List.mem_cons.mp hw with hw1 | hw2
          · exact absurd (hw1 ▸ hwf) hf
          · exact ⟨w, hw2, hwpk, hwf⟩
      · simp only [pkgDepCheck, if_neg hd]
        refine pkgDepCheck_full pk ds found ?_
        rcases h with ⟨w, hw, hwpk, hwf⟩
        rcases List.mem_cons.mp hw with hw1 | hw2
        · exact absurd (hw1 ▸ hwpk) hd
        · exact ⟨w, hw2, hwpk, hwf⟩

theorem pkgDepCheck_nofull (pk : String) :
    ∀ (deps : List (String × String × String)) (found : Bool),
    (∀ d ∈ deps, d.2.2 = pk → d.1 ≠ "full" ∧ d.1 ≠ "indirect-full") →
    pkgDepCheck pk deps found = (found || deps.any (fun d => d.2.2 = pk), false)
  | [], found, _ => by simp [pkgDepCheck]
  | d :: ds, found, h => by
      by_cases hd : d.2.2 = pk
      · have hf := h d (by simp) hd
        have : (d.1 = "full" || d.1 = "indirect-full") = false := by
          simp [hf.1, hf.2]
        simp only [pkgDepCheck, if_pos hd, this, Bool.false_eq_true, if_false]
        rw [pkgDepCheck_nofull pk ds true (fun x hx => h x (by simp [hx]))]
        simp [hd]
      · simp only [pkgDepCheck, if_neg hd]
        rw [pkgDepCheck_nofull pk ds found (fun x hx => h x (by simp [hx]))]
        simp [hd]

/-! ## The dump-line position scan finds the first occurrence -/

theorem posOfSub_spec (need : List Char) :
    ∀ (hay : List Char) (n : Nat), posOfSub need hay = some n →
    occursAt need hay n ∧ ∀ m < n, ¬ occursAt need hay m
  | [], n, h => by
      unfold posOfSub at h
      by_cases hne : need.isEmpty
      · simp only [hne, if_true, Option.some.injEq] at h
        subst h
        refine ⟨?_, fun m hm => absurd hm (Nat.not_lt_zero m)⟩
        unfold occursAt
        rw [List.isEmpty_iff.mp hne]
        simp [List.isPrefixOf]
      · simp [hne] at h
  | c :: cs, n, h => by
      unfold posOfSub at h
      by_cases hp : need.isPrefixOf (c :: cs) = true
      · simp only [hp, if_true, Option.some.injEq] at h
        subst h
        exact ⟨hp, fun m hm => absurd hm (Nat.not_lt_zero m)⟩
      · simp only [hp, Bool.false_eq_true, if_false] at h
        cases hpos : posOfSub need cs with
        | none => rw [hpos] at h; simp at h
        | some n' =>
        rw [hpos] at h
        simp only [Option.map_some', Option.some.injEq] at h
        obtain ⟨h1, h2⟩ := posOfSub_spec need cs n' hpos
        subst h
        refine ⟨h1, fun m hm => ?_⟩
        match m with
        | 0 => exact fun hocc => hp hocc
        | m' + 1 =>
            exact fun hocc => h2 m' (Nat.lt_of_succ_lt_succ hm) hocc

/-! ## Cache-preservation lemmas: entries, once written, survive -/

theorem lookupMap_isEmpty_false {α : Type} (m : List (String × α)) (p : String)
    (v : α) (hp : lookupMap m p = some v) : m.isEmpty = false := by
  cases m with
  | nil => simp [lookupMap] at hp
  | cons e es => rfl

theorem checkPkgAux_preserves (env : Env) (obj lib : String)
    (db : List (String × Option String)) (deps : List (String × String × String))
    (p : String) (v : Option String) (hp : lookupMap db p = some v)
    (d : List String) (b : Bool) (db' : List (String × Option String))
    (h : checkPkgAux env obj lib db deps = some (d, b, db')) :
    lookupMap db' p = some v := by
  have hne := lookupMap_isEmpty_false db p v hp
  unfold checkPkgAux at h
  simp only [hne, Bool.false_eq_true, if_false] at h
  split at h
  · rename_i hl
    simp only [Option.some.injEq, Prod.mk.injEq] at h
    rw [← h.2.2]
    have hpl : p ≠ lib := by
      intro he
      rw [he, hl] at hp
      exact Option.noConfusion hp
    rw [lookupMap_insertMap_ne _ _ _ _ hpl]
    exact hp
  · simp only [Option.some.injEq, Prod.mk.injEq] at h
    rw [← h.2.2]
    exact hp
  · rename_i pk hl
    split at h <;>
      (simp only [Option.some.injEq, Prod.mk.injEq] at h
       rw [← h.2.2]
       exact hp)

theorem check_pkg_statlibs (env : Env) (obj lib : String) (st : CheckState)
    (d : List String) (b : Bool) (st' : CheckState)
    (h : check_pkg env obj lib st = some (d, b, st')) :
    st'.statlibs = st.statlibs := by
  unfold check_pkg at h
  cases ha : checkPkgAux env obj lib st.pkgdb st.depends with
  | none => rw [ha] at h; exact Option.noConfusion h
  | some r =>
      rw [ha] at h
      simp only [Option.map_some', Option.some.injEq, Prod.mk.injEq] at h
      rw [← h.2.2]

theorem check_pkg_pkgdb_preserves (env : Env) (obj lib : String)
    (st : CheckState) (p : String) (v : Option String)
    (hp : lookupMap st.pkgdb p = some v)
    (d : List String) (b : Bool) (st' : CheckState)
    (h : check_pkg env obj lib st = some (d, b, st')) :
    lookupMap st'.pkgdb p = some v := by
  unfold check_pkg at h
  cases ha : checkPkgAux env obj lib st.pkgdb st.depends with
  | none => rw [ha] at h; exact Option.noConfusion h
  | some r =>
      rw [ha] at h
      simp only [Option.map_some', Option.some.injEq, Prod.mk.injEq] at h
      rw [← h.2.2]
      exact checkPkgAux_preserves env obj lib st.pkgdb st.depends p v hp
        r.1 r.2.1 r.2.2 (by rw [ha])

/-- Both caches' existing entries survive a state transition. -/
def PreservesCaches (st st' : CheckState) : Prop :=
  (∀ p v, lookupMap st.statlibs p = some v → lookupMap st'.statlibs p = some v) ∧
  (∀ p v, lookupMap st.pkgdb p = some v → lookupMap st'.pkgdb p = some v)

theorem preservesCaches_refl (st : CheckState) : PreservesCaches st st :=
  ⟨fun _ _ h => h, fun _ _ h => h⟩

theorem preservesCaches_trans {st1 st2 st3 : CheckState}
    (h1 : PreservesCaches st1 st2) (h2 : PreservesCaches st2 st3) :
    PreservesCaches st1 st3 :=
  ⟨fun p v h => h2.1 p v (h1.1 p v h), fun p v h => h2.2 p v (h1.2 p v h)⟩

theorem cachedExists_pkgdb (env : Env) (st : CheckState) (q : String) :
    ((cachedExists env st q).2).pkgdb = st.pkgdb := by
  unfold cachedExists
  cases lookupMap st.statlibs q <;> rfl

theorem cachedExists_preservesCaches (env : Env) (st : CheckState) (q : String) :
    PreservesCaches st (cachedExists env st q).2 := by
  refine ⟨fun p v h => cachedExists_preserves env st p q v h, fun p v h => ?_⟩
  rw [cachedExists_pkgdb]
  exact h

theorem checkPkgDrop_preservesCaches (env : Env) (obj lib : String)
    (st : CheckState) : PreservesCaches st (checkPkgDrop env obj lib st).2 := by
  unfold checkPkgDrop
  cases h : check_pkg env obj lib st with
  | none => exact preservesCaches_refl st
  | some r =>
      constructor
      · intro p v hp
        rw [check_pkg_statlibs env obj lib st r.1 r.2.1 r.2.2 (by rw [h])]
        exact hp
      · intro p v hp
        exact check_pkg_pkgdb_preserves env obj lib st p v hp
          r.1 r.2.1 r.2.2 (by rw [h])

theorem elfStageRunpath_preservesCaches (env : Env) (obj lib : String) :
    ∀ (rs : List String) (st : CheckState),
    PreservesCaches st (elfStageRunpath env obj lib rs st).2
  | [], st => preservesCaches_refl st
  | r :: rs, st => by
      simp only [elfStageRunpath]
      cases hx : (cachedExists env st (pathPush r lib)).1
      · simp only [Bool.false_eq_true, if_false]
        exact preservesCaches_trans (cachedExists_preservesCaches env st (pathPush r lib))
          (elfStageRunpath_preservesCaches env obj lib rs _)
      · simp only [if_true]
        exact preservesCaches_trans (cachedExists_preservesCaches env st (pathPush r lib))
          (checkPkgDrop_preservesCaches env obj (pathPush r lib) _)

theorem elfStageDestdir_preservesCaches (env : Env) (lib : String) :
    ∀ (rs : List String) (st : CheckState),
    PreservesCaches st (elfStageDestdir env lib rs st).2
  | [], st => preservesCaches_refl st
  | r :: rs, st => by
      simp only [elfStageDestdir]
      cases hx : (cachedExists env st (stagedPath st.destdir r lib)).1
      · simp only [Bool.false_eq_true, if_false]
        exact preservesCaches_trans (cachedExists_preservesCaches env st _)
          (elfStageDestdir_preservesCaches env lib rs _)
      · simp only [if_true]
        exact cachedExists_preservesCaches env st _

theorem elfStageSyspath_preservesCaches (env : Env) (obj lib : String) :
    ∀ (rs : List String) (st : CheckState),
    PreservesCaches st (elfStageSyspath env obj lib rs st).2
  | [], st => preservesCaches_refl st
  | r :: rs, st => by
      simp only [elfStageSyspath]
      cases hx : (cachedExists env st (pathPush r lib)).1
      · simp only [Bool.false_eq_true, if_false]
        exact preservesCaches_trans (cachedExists_preservesCaches env st _)
          (elfStageSyspath_preservesCaches env obj lib rs _)
      · simp only [if_true]
        exact cachedExists_preservesCaches env st _

theorem elfCheckLib_preservesCaches (env : Env) (obj : String)
    (runpath syspath : List String) (lib : String) (st : CheckState) :
    PreservesCaches st (elfCheckLib env obj runpath syspath lib st).2 := by
  rcases h1 : elfStageRunpath env obj lib runpath st with ⟨o1, st1⟩
  have p1 : PreservesCaches st st1 := by
    have := elfStageRunpath_preservesCaches env obj lib runpath st
    rw [h1] at this
    exact this
  cases o1 with
  | some d =>
      have he : elfCheckLib env obj runpath syspath lib st = (d, st1) := by
        simp only [elfCheckLib, h1]
      rw [he]
      exact p1
  | none =>
      rcases h2 : elfStageDestdir env lib runpath st1 with ⟨o2, st2⟩
      have p2 : PreservesCaches st1 st2 := by
        have := elfStageDestdir_preservesCaches env lib runpath st1
        rw [h2] at this
        exact this
      cases o2 with
      | true =>
          have he : elfCheckLib env obj runpath syspath lib st = ([], st2) := by
            simp only [elfCheckLib, h1, h2]
          rw [he]
          exact preservesCaches_trans p1 p2
      | false =>
          rcases h3 : elfStageSyspath env obj lib syspath st2 with ⟨o3, st3⟩
          have p3 : PreservesCaches st2 st3 := by
            have := elfStageSyspath_preservesCaches env obj lib syspath st2
            rw [h3] at this
            exact this
          cases o3 with
          | some d =>
              have he : elfCheckLib env obj runpath syspath lib st = (d, st3) := by
                simp only [elfCheckLib, h1, h2, h3]
              rw [he]
              exact preservesCaches_trans (preservesCaches_trans p1 p2) p3
          | none =>
              have he : elfCheckLib env obj runpath syspath lib st =
                  ([missingLine obj lib], st3) := by
                simp only [elfCheckLib, h1, h2, h3]
              rw [he]
              exact preservesCaches_trans (preservesCaches_trans p1 p2) p3

theorem elf_check_dso_preservesCaches (env : Env) (obj : String)
    (elf : ElfObject) (st : CheckState) :
    PreservesCaches st (elf_check_dso env obj elf st).2 := by
  unfold elf_check_dso
  generalize (match elf.runpaths.head? with
    | some p => splitOnChar ':' p
    | none => []) = runpath
  generalize elfSyspath env st = syspath
  suffices h : ∀ (libs : List String) (a : List String) (s : CheckState),
      PreservesCaches s ((libs.foldl
        (fun acc lib =>
          let r := elfCheckLib env obj runpath syspath lib acc.2
          (acc.1 ++ r.1, r.2)) (a, s)).2) by
    exact h elf.libraries [] st
  intro libs
  induction libs with
  | nil => exact fun a s => preservesCaches_refl s
  | cons l ls ih =>
      intro a s
      simp only [List.foldl_cons]
      exact preservesCaches_trans (elfCheckLib_preservesCaches env obj runpath syspath l s)
        (ih (a ++ (elfCheckLib env obj runpath syspath l s).1)
          (elfCheckLib env obj runpath syspath l s).2)

/-! ## The four policy diagnostics are pairwise-distinguishable lines -/

theorem strData_append (s t : String) : (s ++ t).data = s.data ++ t.data := rfl

theorem append_ne_of_getElem_ne (o a b : List Char) (n : Nat)
    (h : a[n]? ≠ b[n]?) : o ++ a ≠ o ++ b := by
  intro he
  exact h (congrArg (fun l => l[n]?) (List.append_cancel_left he))

theorem wrkdirLine_ne_wrkrefLine (obj lib dir : String) :
    wrkdirLine obj lib ≠ wrkrefLine obj lib dir := by
  intro h
  have hd := congrArg String.data h
  simp only [wrkdirLine, wrkrefLine, strData_append, List.append_assoc] at hd
  refine append_ne_of_getElem_ne obj.data _ _ 2 ?_ hd
  rw [List.getElem?_append_left (by decide), List.getElem?_append_left (by decide)]
  decide

theorem wrkdirLine_ne_toxicLine (obj lib pat : String) :
    wrkdirLine obj lib ≠ toxicLine obj lib pat := by
  intro h
  have hd := congrArg String.data h
  simp only [wrkdirLine, toxicLine, strData_append, List.append_assoc] at hd
  refine append_ne_of_getElem_ne obj.data _ _ 2 ?_ hd
  rw [List.getElem?_append_left (by decide), List.getElem?_append_left (by decide)]
  decide

theorem wrkdirLine_ne_relativeLine (obj lib : String) :
    wrkdirLine obj lib ≠ relativeLine obj lib := by
  intro h
  have hd := congrArg String.data h
  simp only [wrkdirLine, relativeLine, strData_append, List.append_assoc] at hd
  refine append_ne_of_getElem_ne obj.data _ _ 2 ?_ hd
  rw [List.getElem?_append_left (by decide), List.getElem?_append_left (by decide)]
  decide

theorem toxicLine_inj (obj lib p1 p2 : String)
    (h : toxicLine obj lib p1 = toxicLine obj lib p2) : p1 = p2 := by
  have hd := congrArg String.data h
  simp only [toxicLine, strData_append, List.append_assoc] at hd
  have h1 := List.append_cancel_left hd
  have h2 := List.append_cancel_left h1
  have h3 := List.append_cancel_left h2
  exact congrArg String.mk (by simpa using h3)

/-! ## The Mach-O per-library missing case -/

theorem machoCheckLib_missing (env : Env) (obj lib : String) (st : CheckState)
    (hskip : (env.skip_system_libs &&
      (strStartsWith lib "/System/Library" || strStartsWith lib "/usr/lib"))
        = false)
    (h1 : effExists env st (machoStagedPath st.destdir lib) = false)
    (h2 : effExists env st lib = false) :
    (machoCheckLib env obj lib st).1 = [missingLine obj lib] := by
  unfold machoCheckLib
  have hx1 : (cachedExists env st (machoStagedPath st.destdir lib)).1 = false := by
    rw [cachedExists_fst]
    exact h1
  have hext := cachedExists_cacheExt env st (machoStagedPath st.destdir lib)
  have hx2 : (cachedExists env
      (cachedExists env st (machoStagedPath st.destdir lib)).2 lib).1 = false := by
    rw [cachedExists_fst, hext.2]
    exact h2
  simp only [hskip, Bool.false_eq_true, if_false, hx1, hx2]

/-! ## Claim theorems -/

/-- C1, counterexample: with `RUNPATH = ["/wrk/lib"]` and `libfoo.so`
present both at the plain resolved path `/wrk/lib/libfoo.so` and staged
at `/destdir/wrk/lib/libfoo.so`, the code matches the plain copy first
and produces a path-policy diagnostic — the claim predicts the staged
copy is matched first with no diagnostics at all. -/
theorem c1_counterexample :
    envBoth.fsExists "/wrk/lib/libfoo.so" = true ∧
    envBoth.fsExists (stagedPath stPlain.destdir "/wrk/lib" "libfoo.so") = true ∧
    (elf_check_dso envBoth "/opt/bin/prog"
      { libraries := ["libfoo.so"], runpaths := ["/wrk/lib"] } stPlain).1 =
      [wrkdirLine "/opt/bin/prog" "/wrk/lib/libfoo.so"] ∧
    (elf_check_dso envBoth "/opt/bin/prog"
      { libraries := ["libfoo.so"], runpaths := ["/wrk/lib"] } stPlain).1 ≠ [] := by
  refine ⟨rfl, rfl, rfl, ?_⟩
  decide

/-- C1 (amended): the staged-but-uninstalled DESTDIR check runs *after*
the plain runpath stage.  If a library exists both under
`destdir/R/lib.so` and under the plain resolved `R/lib.so`, the plain
copy is matched first and the path-policy and ownership validators run
on it; the staged check satisfies a requirement silently only when no
plain runpath candidate exists. -/
theorem c1_staged_check_after_runpath (env : Env) (obj lib r : String)
    (xs ys syspath : List String) (st : CheckState) :
    ((∀ r2 ∈ xs, effExists env st (pathPush r2 lib) = false) →
     effExists env st (pathPush r lib) = true →
     effExists env st (stagedPath st.destdir r lib) = true →
     (elfCheckLib env obj (xs ++ r :: ys) syspath lib st).1 =
       (check_shlib obj (pathPush r lib) st).1 ++
         (checkPkgDrop env obj (pathPush r lib) st).1) ∧
    ((∀ r2 ∈ xs ++ r :: ys, effExists env st (pathPush r2 lib) = false) →
     (∀ r2 ∈ xs, effExists env st (stagedPath st.destdir r2 lib) = false) →
     effExists env st (stagedPath st.destdir r lib) = true →
     (elfCheckLib env obj (xs ++ r :: ys) syspath lib st).1 = []) :=
  ⟨fun hxs hr _ => elfCheckLib_runpath_hit env obj lib r xs ys syspath st hxs hr,
   fun h1 h2 hr => elfCheckLib_staged env obj lib syspath st xs ys r h1 h2 hr⟩

/-- C1, witness: the amended theorem evaluated on the counterexample
configuration. -/
theorem c1_witness :
    (elfCheckLib envBoth "/opt/bin/prog" ([] ++ "/wrk/lib" :: []) []
      "libfoo.so" stPlain).1 =
      (check_shlib "/opt/bin/prog" (pathPush "/wrk/lib" "libfoo.so") stPlain).1 ++
        (checkPkgDrop envBoth "/opt/bin/prog"
          (pathPush "/wrk/lib" "libfoo.so") stPlain).1 :=
  (c1_staged_check_after_runpath envBoth "/opt/bin/prog" "libfoo.so" "/wrk/lib"
    [] [] [] stPlain).1 (by simp) (by decide) (by decide)

/-- C3, counterexample: with `CROSS_DESTDIR=/cross`, RUNPATH entry
`/opt/lib` and the library present at `/cross/opt/lib/liba.so` (the
candidate the claim says is tested), the code tests only the unprefixed
`/opt/lib/liba.so`, finds nothing anywhere, and reports the library
missing; the cross-prefixed path never even enters the existence
cache. -/
theorem c3_counterexample :
    stCross.cross_destdir = some "/cross" ∧
    envCross.fsExists "/cross/opt/lib/liba.so" = true ∧
    (elf_check_dso envCross "/opt/bin/prog"
      { libraries := ["liba.so"], runpaths := ["/opt/lib"] } stCross).1 =
      [missingLine "/opt/bin/prog" "liba.so"] ∧
    lookupMap ((elf_check_dso envCross "/opt/bin/prog"
      { libraries := ["liba.so"], runpaths := ["/opt/lib"] } stCross).2).statlibs
      "/cross/opt/lib/liba.so" = none ∧
    lookupMap ((elf_check_dso envCross "/opt/bin/prog"
      { libraries := ["liba.so"], runpaths := ["/opt/lib"] } stCross).2).statlibs
      "/opt/lib/liba.so" = some false := by
  refine ⟨rfl, rfl, rfl, rfl, rfl⟩

/-- C3 (amended): the runpath-resolution stage tests candidates
`runpath_entry / library_name` with *no* `cross_destdir` prefix (the
prefix applies only to the `PLATFORM_RPATH` system paths); on the first
existing candidate it runs both the path-policy validator and the
ownership validator and stops, and its printed output is unchanged by
any value of `cross_destdir`. -/
theorem c3_runpath_candidates_unprefixed (env : Env) (obj lib r : String)
    (xs ys : List String) (st : CheckState)
    (hxs : ∀ r2 ∈ xs, effExists env st (pathPush r2 lib) = false)
    (hr : effExists env st (pathPush r lib) = true) :
    (∃ st', elfStageRunpath env obj lib (xs ++ r :: ys) st =
      (some ((check_shlib obj (pathPush r lib) st).1 ++
        (checkPkgDrop env obj (pathPush r lib) st).1), st')) ∧
    ∀ c, (elfStageRunpath env obj lib (xs ++ r :: ys)
        { st with cross_destdir := c }).1 =
      (elfStageRunpath env obj lib (xs ++ r :: ys) st).1 :=
  ⟨elfStageRunpath_hit env obj lib r xs ys st hxs hr,
   fun c => by rw [elfStageRunpath_cross env obj lib (xs ++ r :: ys) st c]⟩

/-- C3, witness: the amended theorem on a concrete configuration where
the unprefixed candidate exists. -/
theorem c3_witness :
    ∃ st', elfStageRunpath envPlain "/opt/bin/prog" "liba.so"
      ([] ++ "/opt/lib" :: []) stCross =
      (some ((check_shlib "/opt/bin/prog" (pathPush "/opt/lib" "liba.so")
          stCross).1 ++
        (checkPkgDrop envPlain "/opt/bin/prog"
          (pathPush "/opt/lib" "liba.so") stCross).1), st') :=
  (c3_runpath_candidates_unprefixed envPlain "/opt/bin/prog" "liba.so"
    "/opt/lib" [] [] stCross (by simp) (by decide)).1

/-- C6: a required library that no search stage resolves yields exactly
the one diagnostic `"{object}: missing library: {lib}"` — never zero and
never more than one — for the ELF per-library search (all RUNPATH,
DESTDIR and system-path candidates missing) and likewise for the Mach-O
per-library search (not a skipped system library, staged and direct
paths missing). -/
theorem c6_missing_exactly_once (env : Env) (obj lib : String)
    (runpath syspath : List String) (st : CheckState) :
    ((∀ r ∈ runpath, effExists env st (pathPush r lib) = false) →
     (∀ r ∈ runpath, effExists env st (stagedPath st.destdir r lib) = false) →
     (∀ s2 ∈ syspath, effExists env st (pathPush s2 lib) = false) →
     (elfCheckLib env obj runpath syspath lib st).1 = [missingLine obj lib]) ∧
    ((env.skip_system_libs &&
        (strStartsWith lib "/System/Library" || strStartsWith lib "/usr/lib"))
          = false →
     effExists env st (machoStagedPath st.destdir lib) = false →
     effExists env st lib = false →
     (machoCheckLib env obj lib st).1 = [missingLine obj lib]) :=
  ⟨fun h1 h2 h3 => elfCheckLib_missing env obj lib runpath syspath st h1 h2 h3,
   fun hs h1 h2 => machoCheckLib_missing env obj lib st hs h1 h2⟩

/-- C6, witness: both parts evaluated on an empty filesystem. -/
theorem c6_witness :
    (elfCheckLib envNone "/o" ["/opt/lib"] ["/usr/sys"] "libz.so" stPlain).1 =
      [missingLine "/o" "libz.so"] ∧
    (machoCheckLib envNone "/o" "/usr/local/lib/libz.dylib" stPlain).1 =
      [missingLine "/o" "/usr/local/lib/libz.dylib"] :=
  ⟨(c6_missing_exactly_once envNone "/o" "libz.so" ["/opt/lib"] ["/usr/sys"]
      stPlain).1 (by decide) (by decide) (by decide),
   (c6_missing_exactly_once envNone "/o" "/usr/local/lib/libz.dylib" [] []
      stPlain).2 (by decide) (by decide) (by decide)⟩

/-- C7: the batch driver returns exit code 0 for every environment,
input stream and initial state, regardless of the diagnostics printed
while processing the objects. -/
theorem c7_run_always_exits_zero (env : Env)
    (inputs : List (String × ObjInput)) (st : CheckState) :
    (runDriver env inputs st).2.2 = 0 := rfl

/-- C8: the first entry of a Mach-O object's library list is skipped
before any check: the result — diagnostics and final state — does not
depend on its content in any way, and a one-entry list produces nothing
at all. -/
theorem c8_macho_first_entry_skipped (env : Env) (obj x y : String)
    (rest : List String) (st : CheckState) :
    macho_check_dso env obj { libs := x :: rest } st =
      macho_check_dso env obj { libs := y :: rest } st ∧
    macho_check_dso env obj { libs := [x] } st = ([], st) :=
  ⟨rfl, rfl⟩

/-- C10: the ELF resolver's runpath entries come from splitting only the
first element of the parsed object's `runpaths` on `:`; every element
after the first is ignored — the result is identical to that for the
object carrying the first element alone. -/
theorem c10_only_first_runpaths_element (env : Env) (obj : String)
    (libs : List String) (r : String) (rest : List String) (st : CheckState) :
    elf_check_dso env obj { libraries := libs, runpaths := r :: rest } st =
      elf_check_dso env obj { libraries := libs, runpaths := [r] } st ∧
    elf_check_dso env obj { libraries := libs, runpaths := r :: rest } st =
      libs.foldl (fun acc lib =>
        let q := elfCheckLib env obj (splitOnChar ':' r) (elfSyspath env st)
          lib acc.2
        (acc.1 ++ q.1, q.2)) ([], st) :=
  ⟨rfl, rfl⟩

/-- C2, counterexample: on a dump line whose path itself contains
`" pkg: "`, the parser cuts at the *first* occurrence, not the last:
it stores the file path `"/a"`, not `"/a pkg: b"` as the claim (last
occurrence) requires. -/
theorem c2_counterexample :
    parseDumpLine "file: /a pkg: b pkg: c-1.0" = some ("/a", "c-1.0") ∧
    lookupMap (populatePkgdb ["file: /a pkg: b pkg: c-1.0"] []) "/a pkg: b"
      = none ∧
    lookupMap (populatePkgdb ["file: /a pkg: b pkg: c-1.0"] []) "/a"
      = some (some "c-1.0") ∧
    ("/a" : String) ≠ "/a pkg: b" := by
  refine ⟨rfl, rfl, rfl, ?_⟩
  decide

/-- C2 (amended): for every dump line beginning with `"file: "` that the
parser accepts, the file path is everything between `"file: "` and the
*first* occurrence of `" pkg: "` on the line, the package name is the
final whitespace-delimited token, and lines not beginning with
`"file: "` are skipped without error. -/
theorem c2_dump_parser_first_occurrence :
    (∀ line, strStartsWith line "file: " = false → parseDumpLine line = none) ∧
    (∀ line f p, parseDumpLine line = some (f, p) →
      strStartsWith line "file: " = true ∧
      p = lastToken line ∧
      ∃ pos, 6 ≤ pos ∧ occursAt (" pkg: ".toList) line.toList pos ∧
        (∀ m < pos, ¬ occursAt (" pkg: ".toList) line.toList m) ∧
        f = String.mk ((line.toList.drop 6).take (pos - 6))) := by
  constructor
  · intro line h
    simp only [parseDumpLine, h, Bool.false_eq_true, if_false]
  · intro line f p h
    by_cases hs : strStartsWith line "file: " = true
    · refine ⟨hs, ?_⟩
      unfold parseDumpLine at h
      simp only [hs, if_true] at h
      cases hpos : posOfSub (" pkg: ".toList) line.toList with
      | none => rw [hpos] at h; exact Option.noConfusion h
      | some pos =>
          rw [hpos] at h
          by_cases hlt : pos < 6
          · simp only [hlt, if_true] at h
            exact Option.noConfusion h
          · simp only [hlt, if_false] at h
            simp only [Option.some.injEq, Prod.mk.injEq] at h
            obtain ⟨hspec1, hspec2⟩ := posOfSub_spec (" pkg: ".toList)
              line.toList pos hpos
            exact ⟨h.2.symm, pos, Nat.le_of_not_lt hlt, hspec1, hspec2,
              h.1.symm⟩
    · rw [Bool.not_eq_true] at hs
      rw [parseDumpLine, hs] at h
      simp at h

/-- C2, witness: the amended theorem on a junk line and on a line whose
path contains a space. -/
theorem c2_witness :
    parseDumpLine "some junk" = none ∧
    "c-1.0" = lastToken "file: /a b pkg: c-1.0" :=
  ⟨c2_dump_parser_first_occurrence.1 "some junk" (by decide),
   (c2_dump_parser_first_occurrence.2 "file: /a b pkg: c-1.0" "/a b" "c-1.0"
     (by decide)).2.1⟩

/-- C4: the ownership validator, on a populated index.  A path absent
from the index (a negative entry is then cached), or cached negative, or
owned by a package with no entry at all in the declared dependencies,
yields no diagnostic; an owner declared with kind `full` or
`indirect-full` yields no diagnostic; an owner that appears in the
declared dependencies only with other kinds yields exactly one
"is not a runtime dependency" line naming the object, the resolved path
and the package. -/
theorem c4_ownership_validator (env : Env) (obj lib : String)
    (st : CheckState) (hne : st.pkgdb.isEmpty = false) :
    (lookupMap st.pkgdb lib = none →
      check_pkg env obj lib st =
        some ([], true, { st with pkgdb := insertMap st.pkgdb lib none })) ∧
    (lookupMap st.pkgdb lib = some none →
      check_pkg env obj lib st = some ([], true, st)) ∧
    (∀ pk, lookupMap st.pkgdb lib = some (some pk) →
      ((∀ d ∈ st.depends, d.2.2 ≠ pk) →
        check_pkg env obj lib st = some ([], false, st)) ∧
      ((∃ d ∈ st.depends, d.2.2 = pk ∧ (d.1 = "full" ∨ d.1 = "indirect-full")) →
        check_pkg env obj lib st = some ([], true, st)) ∧
      ((∃ d ∈ st.depends, d.2.2 = pk) →
        (∀ d ∈ st.depends, d.2.2 = pk → d.1 ≠ "full" ∧ d.1 ≠ "indirect-full") →
        check_pkg env obj lib st =
          some ([notRuntimeDepLine obj lib pk], false, st))) := by
  refine ⟨?_, ?_, ?_⟩
  · intro h
    simp [check_pkg, checkPkgAux, hne, h]
  · intro h
    simp [check_pkg, checkPkgAux, hne, h]
  · intro pk h
    refine ⟨?_, ?_, ?_⟩
    · intro hnone
      simp [check_pkg, checkPkgAux, hne, h,
        pkgDepCheck_none pk st.depends false hnone]
    · intro hfull
      rcases hdc : pkgDepCheck pk st.depends false with ⟨f, e⟩
      have he : e = true := by
        have := pkgDepCheck_full pk st.depends false hfull
        rw [hdc] at this
        exact this
      subst he
      simp [check_pkg, checkPkgAux, hne, h, hdc]
    · intro hsome hall
      have hany : st.depends.any (fun d => d.2.2 = pk) = true := by
        rcases hsome with ⟨w, hw, hwpk⟩
        exact List.any_eq_true.mpr ⟨w, hw, by simp [hwpk]⟩
      have hdc := pkgDepCheck_nofull pk st.depends false hall
      rw [hany] at hdc
      simp [check_pkg, checkPkgAux, hne, h, hdc]

/-- C4, witness: an owner declared only as a `build` dependency yields
the single diagnostic line. -/
theorem c4_witness :
    check_pkg envNone "/opt/pkg/bin/mutt" "/opt/pkg/lib/libfoo.so" stDeps =
      some ([notRuntimeDepLine "/opt/pkg/bin/mutt" "/opt/pkg/lib/libfoo.so"
        "libfoo-1.0"], false, stDeps) :=
  ((c4_ownership_validator envNone "/opt/pkg/bin/mutt" "/opt/pkg/lib/libfoo.so"
      stDeps (by decide)).2.2 "libfoo-1.0" (by decide)).2.2
    ⟨("build", "libfoo-1.0", "libfoo-1.0"), by decide, by decide⟩
    (by decide)

/-- C5: the four policy checks are independent and non-short-circuiting.
A resolved path under WRKDIR always yields exactly one "path relative to
WRKDIR" line — no more, no fewer — whatever the other checks also emit;
and a path matching two toxic patterns with different pattern texts
yields two distinct diagnostic lines, one per pattern. -/
theorem c5_policy_checks_independent (obj lib : String) (st : CheckState) :
    (pathStartsWith lib st.wrkdir = true →
      List.count (wrkdirLine obj lib) (check_shlib obj lib st).1 = 1) ∧
    (∀ r1 ∈ st.toxic, ∀ r2 ∈ st.toxic,
      r1.rmatch lib = true → r2.rmatch lib = true →
      r1.pattern ≠ r2.pattern →
      toxicLine obj lib r1.pattern ∈ (check_shlib obj lib st).1 ∧
      toxicLine obj lib r2.pattern ∈ (check_shlib obj lib st).1 ∧
      toxicLine obj lib r1.pattern ≠ toxicLine obj lib r2.pattern) := by
  constructor
  · intro hw
    have h2 : List.count (wrkdirLine obj lib)
        (st.wrkref.filterMap fun dir =>
          if pathStartsWith lib dir then some (wrkrefLine obj lib dir)
          else none) = 0 := by
      rw [List.count_eq_zero]
      intro hmem
      obtain ⟨dir, hdir, heq⟩ := List.mem_filterMap.mp hmem
      by_cases hsw : pathStartsWith lib dir = true
      · rw [if_pos hsw] at heq
        exact wrkdirLine_ne_wrkrefLine obj lib dir (Option.some.inj heq).symm
      · rw [if_neg hsw] at heq
        exact Option.noConfusion heq
    have h3 : List.count (wrkdirLine obj lib)
        (st.toxic.filterMap fun r =>
          if r.rmatch lib then some (toxicLine obj lib r.pattern)
          else none) = 0 := by
      rw [List.count_eq_zero]
      intro hmem
      obtain ⟨r, hr, heq⟩ := List.mem_filterMap.mp hmem
      by_cases hm : r.rmatch lib = true
      · rw [if_pos hm] at heq
        exact wrkdirLine_ne_toxicLine obj lib r.pattern
          (Option.some.inj heq).symm
      · rw [if_neg hm] at heq
        exact Option.noConfusion heq
    have h4 : List.count (wrkdirLine obj lib)
        (if pathStartsWith lib "/" then ([] : List String)
         else [relativeLine obj lib]) = 0 := by
      by_cases habs : pathStartsWith lib "/" = true
      · rw [if_pos habs]
        rfl
      · rw [if_neg habs, List.count_eq_zero]
        intro hmem
        rw [List.mem_singleton] at hmem
        exact wrkdirLine_ne_relativeLine obj lib hmem
    simp only [check_shlib, hw, if_true, List.count_append, h2, h3, h4]
    simp
  · intro r1 hr1 r2 hr2 hm1 hm2 hpat
    have hmem1 : toxicLine obj lib r1.pattern ∈
        (st.toxic.filterMap fun r =>
          if r.rmatch lib then some (toxicLine obj lib r.pattern)
          else none) :=
      List.mem_filterMap.mpr ⟨r1, hr1, by rw [if_pos hm1]⟩
    have hmem2 : toxicLine obj lib r2.pattern ∈
        (st.toxic.filterMap fun r =>
          if r.rmatch lib then some (toxicLine obj lib r.pattern)
          else none) :=
      List.mem_filterMap.mpr ⟨r2, hr2, by rw [if_pos hm2]⟩
    refine ⟨?_, ?_, fun hq => hpat (toxicLine_inj obj lib _ _ hq)⟩
    · simp only [check_shlib, List.mem_append]
      exact Or.inl (Or.inr hmem1)
    · simp only [check_shlib, List.mem_append]
      exact Or.inl (Or.inr hmem2)

/-- C5, witness: a path under WRKDIR matching two always-matching toxic
patterns. -/
theorem c5_witness :
    List.count (wrkdirLine "/o/bin/p" "/wrk/lib.so")
      (check_shlib "/o/bin/p" "/wrk/lib.so" stPolicy).1 = 1 ∧
    toxicLine "/o/bin/p" "/wrk/lib.so" "pat1" ∈
      (check_shlib "/o/bin/p" "/wrk/lib.so" stPolicy).1 ∧
    toxicLine "/o/bin/p" "/wrk/lib.so" "pat2" ∈
      (check_shlib "/o/bin/p" "/wrk/lib.so" stPolicy).1 ∧
    toxicLine "/o/bin/p" "/wrk/lib.so" "pat1" ≠
      toxicLine "/o/bin/p" "/wrk/lib.so" "pat2" :=
  ⟨(c5_policy_checks_independent "/o/bin/p" "/wrk/lib.so" stPolicy).1
      (by decide),
   (c5_policy_checks_independent "/o/bin/p" "/wrk/lib.so" stPolicy).2
     rgx1 (by simp [stPolicy]) rgx2 (by simp [stPolicy]) rfl rfl
     (by decide)⟩

/-- C9, counterexample: the one-time population of the ownership index
overwrites an entry when the dump lists the same path twice with
different owners — the entry for `/a`, once written as `p1`, is
subsequently overwritten with the different value `p2` within the same
`check_pkg` call. -/
theorem c9_counterexample :
    lookupMap (populatePkgdb ["file: /a pkg: p1"] []) "/a" = some (some "p1") ∧
    lookupMap (populatePkgdb ["file: /a pkg: p1", "file: /a pkg: p2"] []) "/a"
      = some (some "p2") ∧
    (some "p1" : Option String) ≠ some "p2" ∧
    (check_pkg envDupDump "/o" "/lib" stPlain).map
      (fun r => lookupMap r.2.2.pkgdb "/a") = some (some (some "p2")) := by
  refine ⟨rfl, rfl, ?_, rfl⟩
  decide

/-- C9 (amended): outside the one-time population of the ownership
index (whose last write wins on duplicate dump paths), cache entries are
never overwritten: a cached existence answer is returned as stored with
the state unchanged, an existence check for any path preserves every
stored entry, an ownership lookup for an indexed path returns with the
state unchanged, and processing a whole ELF object preserves every
stored entry of both caches. -/
theorem c9_caches_write_once (env : Env) (obj lib q p : String)
    (st : CheckState) :
    (∀ v, lookupMap st.statlibs p = some v → cachedExists env st p = (v, st)) ∧
    (∀ v, lookupMap st.statlibs p = some v →
      lookupMap ((cachedExists env st q).2).statlibs p = some v) ∧
    (∀ v, lookupMap st.pkgdb lib = some v →
      ∃ d b, check_pkg env obj lib st = some (d, b, st)) ∧
    (∀ (o : ElfObject) v, lookupMap st.statlibs p = some v →
      lookupMap ((elf_check_dso env obj o st).2).statlibs p = some v) ∧
    (∀ (o : ElfObject) v, lookupMap st.pkgdb p = some v →
      lookupMap ((elf_check_dso env obj o st).2).pkgdb p = some v) := by
  refine ⟨fun v h => cachedExists_of_cached env st p v h,
    fun v h => cachedExists_preserves env st p q v h, ?_,
    fun o v h => (elf_check_dso_preservesCaches env obj o st).1 p v h,
    fun o v h => (elf_check_dso_preservesCaches env obj o st).2 p v h⟩
  intro v hv
  have hne := lookupMap_isEmpty_false st.pkgdb lib v hv
  cases v with
  | none => exact ⟨[], true, by simp [check_pkg, checkPkgAux, hne, hv]⟩
  | some pk =>
      rcases hdc : pkgDepCheck pk st.depends false with ⟨f, e⟩
      cases f <;> cases e
      · exact ⟨[], false, by simp [check_pkg, checkPkgAux, hne, hv, hdc]⟩
      · exact ⟨[], true, by simp [check_pkg, checkPkgAux, hne, hv, hdc]⟩
      · exact ⟨[notRuntimeDepLine obj lib pk], false,
          by simp [check_pkg, checkPkgAux, hne, hv, hdc]⟩
      · exact ⟨[], true, by simp [check_pkg, checkPkgAux, hne, hv, hdc]⟩

/-- C9, witness: a pre-cached existence entry is returned as stored, and
a pre-written ownership entry survives processing a whole ELF object. -/
theorem c9_witness :
    cachedExists envNone stCached "/x" = (true, stCached) ∧
    lookupMap ((elf_check_dso envNone "/o"
      { libraries := ["libq.so"], runpaths := ["/r"] } stCached).2).pkgdb "/a"
      = some (some "p") :=
  ⟨(c9_caches_write_once envNone "/o" "/l" "/q" "/x" stCached).1 true
      (by decide),
   (c9_caches_write_once envNone "/o" "/l" "/q" "/a" stCached).2.2.2.2
     { libraries := ["libq.so"], runpaths := ["/r"] } (some "p") (by decide)⟩
